import Mathlib

/-
Verification of the virt-arena bump allocator.

The development shallowly embeds the three source files:
  * lib.rs     : the typed facade, the `VirtArenaRaw` trait (with its default
                 `alloc_zeroed`), the slice allocation helpers and the
                 `VIRT_ALLOC_SIZE` capacity constant;
  * unix.rs    : the mmap-backed arena (`start` pointer plus a `cursor` cell)
                 and its `alloc_uninit` / `bytes_used` / `reset`;
  * windows.rs : the VirtualAlloc-backed arena with an additional
                 `commit_cursor` advanced in `COMMIT_BLOCK_SIZE` blocks.

Pointers and machine integers are modelled as `Nat`.  Where the source
performs pointer arithmetic whose overflow is undefined behaviour in Rust
(`byte_add` past the end of the address space), the embedding uses the
de-facto two's-complement wraparound, written as an explicit `% 2 ^ 64`.
Fatal paths (the OOM abort and an aborted `align_offset` call) are `none`.
-/

/-- Two to the 64th: the modulus of `usize` arithmetic on the 64-bit targets
the crate is built for. -/
def USIZE_MOD : Nat := 2 ^ 64

/-- The value `usize::MAX`, returned by `align_offset` when no offset can
align the pointer. -/
def USIZE_MAX : Nat := 2 ^ 64 - 1

/-- The value `isize::MAX`, the bound used by `Layout::array`. -/
def ISIZE_MAX : Nat := 2 ^ 63 - 1

/-- lib.rs: `const VIRT_ALLOC_SIZE: usize = 128 * (1 << 30);` — the reserved
capacity, 128 GiB = 2^37 bytes. -/
def VIRT_ALLOC_SIZE : Nat := 128 * (1 <<< 30)

/-- Decides whether a number is a power of two (`usize::is_power_of_two`). -/
def isPow2 (n : Nat) : Bool :=
  (List.range (n + 1)).any (fun k => n == 2 ^ k)

/-- Model of `p.byte_offset_from(q) as usize` for byte pointers at addresses
`c` and `s`: the exact signed difference reinterpreted as a `usize`
(two's complement). -/
def byte_offset_from_usize (c s : Nat) : Nat :=
  (((c : Int) - (s : Int)) % ((2 : Int) ^ 64)).toNat

/-- Model of Rust `NonNull::<T>::align_offset(a)` for a pointer whose address
is `addr` and whose pointee has size `stride`.  The call aborts when `a` is
not a power of two (modelled as `none`).  Otherwise it returns the smallest
count `n` of ELEMENTS (not bytes) such that `addr + n * stride` is a multiple
of `a`, and `usize::MAX` when no such count exists.  Because the sources call
it on a `NonNull<MaybeUninit<T>>` — whose stride is a multiple of `a` for
every Rust layout — the returned value is `0` when `addr` is already aligned
and `usize::MAX` otherwise. -/
def align_offset (addr stride a : Nat) : Option Nat :=
  if isPow2 a then
    some (((List.range a).find? (fun n => (addr + n * stride) % a == 0)).getD USIZE_MAX)
  else none

namespace Unix

/-- unix.rs: `struct VirtArena { start: NonNull<u8>, cursor: Cell<NonNull<u8>> }`,
with both pointers as addresses. -/
structure VirtArena where
  start : Nat
  cursor : Nat
deriving DecidableEq

/-- unix.rs `VirtArena::new()`: after a successful mmap the cursor starts at
the returned base address (which the model keeps abstract). -/
def init (base : Nat) : VirtArena := ⟨base, base⟩

/-- unix.rs `bytes_used`: `self.cursor.get().byte_offset_from(self.start) as usize`. -/
def bytes_used (st : VirtArena) : Nat :=
  byte_offset_from_usize st.cursor st.start

/-- unix.rs `reset`: `self.cursor.set(self.start)`. -/
def reset (st : VirtArena) : VirtArena := ⟨st.start, st.start⟩

/-- unix.rs `alloc_uninit::<T>` for a `T` of the given size and alignment:
take the cursor, call `align_offset` on it (stride = size of `MaybeUninit<T>`
= size of `T`), `byte_add` the offset, `byte_add` the size to get the new
cursor, abort with "OOM" when the new cursor is more than `VIRT_ALLOC_SIZE`
bytes past `start`, otherwise store the new cursor and return the pointer.
The two `byte_add`s wrap modulo 2^64 (UB in Rust, de-facto wraparound). -/
def alloc_uninit (size align : Nat) (st : VirtArena) : Option Nat × VirtArena :=
  match align_offset st.cursor size align with
  | none => (none, st)
  | some off =>
    let ptr := (st.cursor + off) % USIZE_MOD
    let cursor := (ptr + size) % USIZE_MOD
    if VIRT_ALLOC_SIZE < byte_offset_from_usize cursor st.start then (none, st)
    else (some ptr, ⟨st.start, cursor⟩)

/-- A sequence of `alloc_uninit` calls with the given (size, alignment)
requests; returns the (pointer, size) pair of every allocation and the final
arena, or `none` when any call aborts. -/
def run : List (Nat × Nat) → VirtArena → Option (List (Nat × Nat) × VirtArena)
  | [], st => some ([], st)
  | (s, a) :: reqs, st =>
    match alloc_uninit s a st with
    | (some p, st') =>
      match run reqs st' with
      | some (res, st'') => some ((p, s) :: res, st'')
      | none => none
    | (none, _) => none

end Unix

/-- The unix arena together with the process memory it allocates from:
`mem addr` is the byte stored at address `addr`. -/
structure ArenaMem where
  arena : Unix.VirtArena
  mem : Nat → Nat

/-- unix.rs `reset` viewed on the memory-carrying state: only the cursor cell
is written, no byte of arena memory is touched. -/
def reset_mem (st : ArenaMem) : ArenaMem :=
  ⟨Unix.reset st.arena, st.mem⟩

/-- unix.rs `alloc_uninit` viewed on the memory-carrying state: the call only
reads and writes the cursor cell and returns a handle to uninitialized
memory; it writes no byte of arena memory. -/
def alloc_uninit_mem (size align : Nat) (st : ArenaMem) : Option Nat × ArenaMem :=
  ((Unix.alloc_uninit size align st.arena).1,
    ⟨(Unix.alloc_uninit size align st.arena).2, st.mem⟩)

namespace Raw

/-- Modelled from the spec: the layout-based bump allocator
`VirtArenaRaw::alloc(&self, layout)` is declared in the lib.rs trait and
called by the facade, but no implementation of it is under src/ (the platform
files implement a typed `alloc_uninit` instead).  Following spec section 4.3:
compute the smallest pointer at or above the current cursor that is a
multiple of the alignment, verify `pointer + size - base <= capacity`, and if
so advance the cursor past the end of the allocation and return the pointer;
if not, abort (modelled as `none`, the arena untouched). -/
def alloc (size align : Nat) (st : Unix.VirtArena) : Option Nat × Unix.VirtArena :=
  let ptr := st.cursor + (align - st.cursor % align) % align
  if VIRT_ALLOC_SIZE < ptr + size - st.start then (none, st)
  else (some ptr, ⟨st.start, ptr + size⟩)

/-- lib.rs `VirtArenaRaw::alloc_zeroed` (the trait default method): call
`alloc` with the layout, then `ptr.write_bytes(0, layout.size())`. -/
def alloc_zeroed (size align : Nat) (st : ArenaMem) : Option Nat × ArenaMem :=
  match alloc size align st.arena with
  | (none, ar) => (none, ⟨ar, st.mem⟩)
  | (some p, ar) =>
    (some p, ⟨ar, fun addr => if p ≤ addr ∧ addr < p + size then 0 else st.mem addr⟩)

/-- The bound `Layout::max_size_for_align(align)` used by `Layout::array`:
`isize::MAX - (align - 1)`. -/
def max_size_for_align (align : Nat) : Nat := ISIZE_MAX - (align - 1)

/-- Model of `Layout::array::<T>(n)` for an element type of the given size
and alignment: errors (`none`) exactly when `size != 0` and
`n > max_size_for_align align / size` — i.e. when `size * n` would overflow
the `isize::MAX` bound — and otherwise yields the combined layout
`(size * n, align)`. -/
def layout_array (size align n : Nat) : Option (Nat × Nat) :=
  if size ≠ 0 ∧ max_size_for_align align / size < n then none
  else some (size * n, align)

/-- lib.rs `VirtArena::alloc_slice_uninit::<T>(count)`:
`Layout::array::<T>(count).expect(..)` — the `expect` aborts on a layout
error (modelled as `none` with the arena untouched) — then one `alloc` call
with the combined layout. -/
def alloc_slice_uninit (size align n : Nat) (st : Unix.VirtArena) :
    Option Nat × Unix.VirtArena :=
  match layout_array size align n with
  | none => (none, st)
  | some (sz, al) => alloc sz al st

/-- lib.rs `VirtArena::alloc_slice_zeroed::<T>(count)`: `Layout::array` with
`expect`, then one `alloc_zeroed` call with the combined layout. -/
def alloc_slice_zeroed (size align n : Nat) (st : ArenaMem) : Option Nat × ArenaMem :=
  match layout_array size align n with
  | none => (none, st)
  | some (sz, al) => alloc_zeroed sz al st

end Raw

namespace Windows

/-- windows.rs: `const COMMIT_BLOCK_SIZE: usize = 1 << 10;` = 1024 bytes
(the comment next to it in the source says 1 MiB, but the value is 1 KiB). -/
def COMMIT_BLOCK_SIZE : Nat := 1024

/-- windows.rs: `struct VirtArena { start, alloc_cursor, commit_cursor }`,
all `NonNull<u8>` addresses. -/
structure VirtArena where
  start : Nat
  alloc_cursor : Nat
  commit_cursor : Nat
deriving DecidableEq

/-- windows.rs `VirtArena::new()`: after a successful `VirtualAlloc`
reservation both cursors start at the base address. -/
def init (base : Nat) : VirtArena := ⟨base, base, base⟩

/-- The commit loop of windows.rs `alloc_uninit`:
`while commit_cursor < alloc_cursor { VirtualAlloc(commit_cursor,
COMMIT_BLOCK_SIZE, MEM_COMMIT, ..); commit_cursor += COMMIT_BLOCK_SIZE }`,
unrolled on a fuel argument that bounds the number of iterations (each
iteration advances the commit cursor by at least one byte).  Returns the
start addresses of the blocks passed to `VirtualAlloc` and the final commit
cursor.  A `VirtualAlloc` commit failure aborts the process and is outside
the model (the OS call is treated as succeeding). -/
def commitAux : Nat → Nat → Nat → List Nat × Nat
  | 0, commit, _ => ([], commit)
  | fuel + 1, commit, target =>
    if commit < target then
      (commit :: (commitAux fuel (commit + COMMIT_BLOCK_SIZE) target).1,
        (commitAux fuel (commit + COMMIT_BLOCK_SIZE) target).2)
    else ([], commit)

/-- The commit loop with its fuel instantiated: `target - commit` iterations
always suffice because every iteration adds `COMMIT_BLOCK_SIZE ≥ 1`. -/
def commit_loop (commit target : Nat) : List Nat × Nat :=
  commitAux (target - commit) commit target

/-- windows.rs `bytes_used`. -/
def bytes_used (st : VirtArena) : Nat :=
  byte_offset_from_usize st.alloc_cursor st.start

/-- windows.rs `reset`: `self.alloc_cursor.set(self.start)`; the commit
cursor keeps its value. -/
def reset (st : VirtArena) : VirtArena := ⟨st.start, st.start, st.commit_cursor⟩

/-- windows.rs `alloc_uninit::<T>`: the same bump-and-check as on unix
(including the `align_offset` call on the typed pointer and the wrapping
`byte_add`s), and on success the commit loop advancing `commit_cursor` in
whole `COMMIT_BLOCK_SIZE` blocks until it covers the new `alloc_cursor`.
Also returns the list of block addresses passed to `VirtualAlloc`. -/
def alloc_uninit (size align : Nat) (st : VirtArena) :
    Option Nat × List Nat × VirtArena :=
  match align_offset st.alloc_cursor size align with
  | none => (none, [], st)
  | some off =>
    let value := (st.alloc_cursor + off) % USIZE_MOD
    let cursor := (value + size) % USIZE_MOD
    if VIRT_ALLOC_SIZE < byte_offset_from_usize cursor st.start then (none, [], st)
    else
      (some value, (commit_loop st.commit_cursor cursor).1,
        ⟨st.start, cursor, (commit_loop st.commit_cursor cursor).2⟩)

/-- An operation on the windows arena: a typed allocation or a reset. -/
inductive Op
  | alloc (size align : Nat)
  | reset

/-- One operation: an allocation yields its committed blocks (aborting runs
are `none`); a reset commits nothing. -/
def step (op : Op) (st : VirtArena) : Option (List Nat × VirtArena) :=
  match op with
  | .alloc s a =>
    match alloc_uninit s a st with
    | (some _, blocks, st') => some (blocks, st')
    | (none, _, _) => none
  | .reset => some ([], reset st)

/-- A sequence of operations, collecting every block address ever passed to
`VirtualAlloc` with `MEM_COMMIT`. -/
def run : List Op → VirtArena → Option (List Nat × VirtArena)
  | [], st => some ([], st)
  | op :: ops, st =>
    match step op st with
    | some (blocks, st') =>
      match run ops st' with
      | some (blocks', st'') => some (blocks ++ blocks', st'')
      | none => none
    | none => none

end Windows

namespace Windows

lemma commit_block_pos : 0 < COMMIT_BLOCK_SIZE := by decide

lemma commitAux_le (fuel commit target : Nat) :
    commit ≤ (commitAux fuel commit target).2 := by
  induction fuel generalizing commit with
  | zero => simp [commitAux]
  | succ fuel ih =>
    simp only [commitAux]
    split
    · exact le_trans (Nat.le_add_right _ _) (ih (commit + COMMIT_BLOCK_SIZE))
    · simp

lemma commitAux_dvd (fuel commit target : Nat) :
    COMMIT_BLOCK_SIZE ∣ (commitAux fuel commit target).2 - commit := by
  induction fuel generalizing commit with
  | zero => simp [commitAux]
  | succ fuel ih =>
    simp only [commitAux]
    split
    · have h1 := ih (commit + COMMIT_BLOCK_SIZE)
      have h2 := commitAux_le fuel (commit + COMMIT_BLOCK_SIZE) target
      have h3 : (commitAux fuel (commit + COMMIT_BLOCK_SIZE) target).2 - commit =
          ((commitAux fuel (commit + COMMIT_BLOCK_SIZE) target).2 -
            (commit + COMMIT_BLOCK_SIZE)) + COMMIT_BLOCK_SIZE := by omega
      rw [h3]
      exact dvd_add h1 dvd_rfl
    · simp

lemma commitAux_target (fuel commit target : Nat) (h : target ≤ commit + fuel) :
    target ≤ (commitAux fuel commit target).2 := by
  induction fuel generalizing commit with
  | zero => simpa [commitAux] using h
  | succ fuel ih =>
    simp only [commitAux]
    split
    · refine ih (commit + COMMIT_BLOCK_SIZE) ?_
      have := commit_block_pos
      omega
    · omega

lemma commitAux_blocks (fuel commit target : Nat) :
    ∀ b ∈ (commitAux fuel commit target).1,
      commit ≤ b ∧ b + COMMIT_BLOCK_SIZE ≤ (commitAux fuel commit target).2 ∧
        COMMIT_BLOCK_SIZE ∣ b - commit := by
  induction fuel generalizing commit with
  | zero => simp [commitAux]
  | succ fuel ih =>
    simp only [commitAux]
    split
    · intro b hb
      rcases List.mem_cons.mp hb with rfl | hb
      · exact ⟨le_refl _, commitAux_le fuel (b + COMMIT_BLOCK_SIZE) target, by simp⟩
      · obtain ⟨h1, h2, h3⟩ := ih (commit + COMMIT_BLOCK_SIZE) b hb
        refine ⟨by omega, h2, ?_⟩
        have h4 : b - commit = (b - (commit + COMMIT_BLOCK_SIZE)) + COMMIT_BLOCK_SIZE := by
          omega
        rw [h4]
        exact dvd_add h3 dvd_rfl
    · simp

lemma commitAux_pairwise (fuel commit target : Nat) :
    ((commitAux fuel commit target).1).Pairwise (· < ·) := by
  induction fuel generalizing commit with
  | zero => simp [commitAux]
  | succ fuel ih =>
    simp only [commitAux]
    split
    · refine List.Pairwise.cons ?_ (ih (commit + COMMIT_BLOCK_SIZE))
      intro b hb
      have h1 := (commitAux_blocks fuel (commit + COMMIT_BLOCK_SIZE) target b hb).1
      have := commit_block_pos
      omega
    · simp

lemma commit_loop_le (commit target : Nat) : commit ≤ (commit_loop commit target).2 :=
  commitAux_le _ _ _

lemma commit_loop_target (commit target : Nat) : target ≤ (commit_loop commit target).2 := by
  by_cases h : target ≤ commit
  · exact le_trans h (commit_loop_le _ _)
  · exact commitAux_target _ _ _ (by omega)

lemma commit_loop_dvd (commit target : Nat) :
    COMMIT_BLOCK_SIZE ∣ (commit_loop commit target).2 - commit :=
  commitAux_dvd _ _ _

lemma commit_loop_blocks (commit target : Nat) :
    ∀ b ∈ (commit_loop commit target).1,
      commit ≤ b ∧ b + COMMIT_BLOCK_SIZE ≤ (commit_loop commit target).2 ∧
        COMMIT_BLOCK_SIZE ∣ b - commit :=
  commitAux_blocks _ _ _

lemma commit_loop_pairwise (commit target : Nat) :
    ((commit_loop commit target).1).Pairwise (· < ·) :=
  commitAux_pairwise _ _ _

/-- On a successful allocation the new state is the old one with the cursor
advanced and the commit cursor produced by the commit loop targeting the new
cursor; the returned blocks are the loop's blocks. -/
lemma alloc_uninit_success (size align : Nat) (st : VirtArena) (p : Nat)
    (blocks : List Nat) (st' : VirtArena)
    (h : alloc_uninit size align st = (some p, blocks, st')) :
    st'.start = st.start ∧
      blocks = (commit_loop st.commit_cursor st'.alloc_cursor).1 ∧
      st'.commit_cursor = (commit_loop st.commit_cursor st'.alloc_cursor).2 := by
  unfold alloc_uninit at h
  split at h
  · simp at h
  · dsimp only at h
    split at h
    · simp at h
    · simp only [Prod.mk.injEq, Option.some.injEq] at h
      obtain ⟨h1, h2, h3⟩ := h
      subst h2
      subst h3
      exact ⟨rfl, rfl, rfl⟩

lemma dvd_sub_chain (B x y z : Nat) (hxy : x ≤ y) (hyz : y ≤ z)
    (h1 : B ∣ y - x) (h2 : B ∣ z - y) : B ∣ z - x := by
  have h3 : z - x = (z - y) + (y - x) := by omega
  rw [h3]
  exact dvd_add h2 h1

/-- Invariant preservation for one operation, together with the freshness of
the blocks it commits. -/
lemma step_inv (op : Op) (st : VirtArena) (blocks : List Nat) (st' : VirtArena)
    (h1 : st.start ≤ st.commit_cursor)
    (_h2 : st.alloc_cursor ≤ st.commit_cursor)
    (h3 : COMMIT_BLOCK_SIZE ∣ st.commit_cursor - st.start)
    (h : step op st = some (blocks, st')) :
    st'.start = st.start ∧ st.commit_cursor ≤ st'.commit_cursor ∧
      st'.alloc_cursor ≤ st'.commit_cursor ∧
      COMMIT_BLOCK_SIZE ∣ st'.commit_cursor - st'.start ∧
      COMMIT_BLOCK_SIZE ∣ st'.commit_cursor - st.commit_cursor ∧
      (∀ b ∈ blocks, st.commit_cursor ≤ b ∧ b + COMMIT_BLOCK_SIZE ≤ st'.commit_cursor ∧
        COMMIT_BLOCK_SIZE ∣ b - st.commit_cursor) ∧
      blocks.Pairwise (· < ·) := by
  cases op with
  | reset =>
    simp only [step, Option.some.injEq, Prod.mk.injEq] at h
    obtain ⟨hb, hs⟩ := h
    subst hb
    subst hs
    exact ⟨rfl, le_refl _, h1, h3, by simp [reset], by simp, List.Pairwise.nil⟩
  | alloc s a =>
    simp only [step] at h
    split at h
    · rename_i q bl st₁ heq
      simp only [Option.some.injEq, Prod.mk.injEq] at h
      obtain ⟨rfl, rfl⟩ := h
      obtain ⟨hstart, hblocks, hcommit⟩ := alloc_uninit_success _ _ _ _ _ _ heq
      refine ⟨hstart, ?_, ?_, ?_, ?_, ?_, ?_⟩
      · rw [hcommit]; exact commit_loop_le _ _
      · rw [hcommit]; exact commit_loop_target _ _
      · rw [hcommit, hstart]
        exact dvd_sub_chain _ _ _ _ h1 (commit_loop_le _ _) h3 (commit_loop_dvd _ _)
      · rw [hcommit]; exact commit_loop_dvd _ _
      · rw [hblocks, hcommit]; exact commit_loop_blocks _ _
      · rw [hblocks]; exact commit_loop_pairwise _ _
    · simp at h

end Windows

lemma unix_alloc_start (size align : Nat) (st : Unix.VirtArena) :
    ((Unix.alloc_uninit size align st).2).start = st.start := by
  unfold Unix.alloc_uninit
  split
  · rfl
  · dsimp only
    split
    · rfl
    · rfl

lemma unix_run_start : ∀ (reqs : List (Nat × Nat)) (st : Unix.VirtArena)
    (res : List (Nat × Nat)) (st' : Unix.VirtArena),
    Unix.run reqs st = some (res, st') → st'.start = st.start := by
  intro reqs
  induction reqs with
  | nil =>
    intro st res st' h
    simp only [Unix.run, Option.some.injEq, Prod.mk.injEq] at h
    obtain ⟨rfl, rfl⟩ := h
    rfl
  | cons req reqs ih =>
    obtain ⟨s, a⟩ := req
    intro st res st' h
    simp only [Unix.run] at h
    split at h
    · rename_i p st₁ heq
      split at h
      · rename_i res₁ st₂ heq₂
        simp only [Option.some.injEq, Prod.mk.injEq] at h
        obtain ⟨rfl, rfl⟩ := h
        have e1 := ih _ _ _ heq₂
        have e2 : st₁.start = st.start := by
          have e3 := unix_alloc_start s a st
          rw [heq] at e3
          exact e3
        exact e1.trans e2
      · exact absurd h (by simp)
    · exact absurd h (by simp)

/-
Claim theorems.
-/

/-- C1 (refuted on the code): the claim states that an allocation of size s
and alignment a computes the smallest address p at or above the cursor that
is a multiple of a, succeeds exactly when p + s - base fits the capacity,
and then advances the cursor to p + s.  On the arena with base 8, after one
allocation of (size 1, align 1) the cursor is 9; the claim demands that the
following (size 8, align 8) allocation return p = 16 = 9 + (8 - 9 % 8) % 8
and set the cursor to 24.  Instead `align_offset`, called on the typed
pointer, yields usize::MAX, the wrapping `byte_add` lands on address 8, and
the call succeeds returning 8 with the cursor set to 16. -/
theorem alloc_uninit_misaligned_cursor_wrong_pointer :
    Unix.run [(1, 1), (8, 8)] (Unix.init 8) = some ([(8, 1), (8, 8)], ⟨8, 16⟩) ∧
      9 + (8 - 9 % 8) % 8 = 16 := by
  exact ⟨by decide, by decide⟩

/-- C2 (refuted on the code): the claim states that allocations of a
sequence that stays within capacity have pairwise disjoint byte ranges.  On
the arena with base 8, the successful run of (size 1, align 1) followed by
(size 8, align 8) returns the ranges [8, 9) and [8, 16), and neither range
lies before the other: they overlap at address 8. -/
theorem alloc_ranges_overlap :
    Unix.run [(1, 1), (8, 8)] (Unix.init 8) = some ([(8, 1), (8, 8)], ⟨8, 16⟩) ∧
      ¬ (8 + 1 ≤ 8 ∨ 8 + 8 ≤ 8) := by
  exact ⟨by decide, by decide⟩

/-- C3 (refuted on the code): the claim states that every allocation either
aborts or returns a multiple of the requested alignment.  On the arena with
base 8, after two (size 1, align 1) allocations the cursor is 10; the
following (size 8, align 8) allocation does not abort and returns address 9,
which is not a multiple of 8. -/
theorem alloc_returns_unaligned_pointer :
    Unix.run [(1, 1), (1, 1), (8, 8)] (Unix.init 8) =
      some ([(8, 1), (9, 1), (9, 8)], ⟨8, 17⟩) ∧
      9 % 8 ≠ 0 := by
  exact ⟨by decide, by decide⟩

/-- C4 (refuted on the code): the claim states that after a sequence of
allocations `bytes_used` equals the sum of the allocated sizes plus the
alignment padding inserted before each allocation.  On the arena with base
8, after (size 1, align 1) and (size 8, align 8) that sum is
1 + ((8 - 9 % 8) % 8 + 8) = 16, but the code leaves the cursor at 16 and
`bytes_used` returns 8. -/
theorem bytes_used_not_padded_sum :
    Unix.run [(1, 1), (8, 8)] (Unix.init 8) = some ([(8, 1), (8, 8)], ⟨8, 16⟩) ∧
      Unix.bytes_used ⟨8, 16⟩ = 8 ∧
      1 + ((8 - 9 % 8) % 8 + 8) = 16 ∧ (8 : Nat) ≠ 16 := by
  refine ⟨by decide, by decide, by decide, by decide⟩

/-- C5: on the explicit-commit platform, for every run of allocations and
resets that does not abort, started in a state satisfying the construction
invariant (base ≤ commit cursor, alloc cursor ≤ commit cursor, and commit
cursor a whole number of COMMIT_BLOCK_SIZE blocks past base — all true of a
fresh arena), the final state satisfies the same invariant: the commit
cursor covers the alloc cursor, sits a whole number of blocks past the base,
never moves backwards, and advances only by whole blocks; and every block
ever passed to VirtualAlloc lies at a whole-block offset from the previously
tracked boundary, below the final commit cursor, and the committed blocks
are strictly increasing — no block is ever committed twice. -/
theorem commit_cursor_invariants :
    ∀ (ops : List Windows.Op) (st : Windows.VirtArena) (blocks : List Nat)
      (st' : Windows.VirtArena),
      st.start ≤ st.commit_cursor →
      st.alloc_cursor ≤ st.commit_cursor →
      Windows.COMMIT_BLOCK_SIZE ∣ st.commit_cursor - st.start →
      Windows.run ops st = some (blocks, st') →
      st'.start = st.start ∧ st.commit_cursor ≤ st'.commit_cursor ∧
        st'.alloc_cursor ≤ st'.commit_cursor ∧
        Windows.COMMIT_BLOCK_SIZE ∣ st'.commit_cursor - st'.start ∧
        Windows.COMMIT_BLOCK_SIZE ∣ st'.commit_cursor - st.commit_cursor ∧
        (∀ b ∈ blocks, st.commit_cursor ≤ b ∧
          b + Windows.COMMIT_BLOCK_SIZE ≤ st'.commit_cursor ∧
          Windows.COMMIT_BLOCK_SIZE ∣ b - st.commit_cursor) ∧
        blocks.Pairwise (· < ·) := by
  intro ops
  induction ops with
  | nil =>
    intro st blocks st' h1 h2 h3 h
    simp only [Windows.run, Option.some.injEq, Prod.mk.injEq] at h
    obtain ⟨rfl, rfl⟩ := h
    exact ⟨rfl, le_refl _, h2, h3, by simp, by simp, List.Pairwise.nil⟩
  | cons op ops ih =>
    intro st blocks st' h1 h2 h3 h
    simp only [Windows.run] at h
    split at h
    · rename_i bl₁ st₁ heq
      split at h
      · rename_i bl₂ st₂ heq₂
        simp only [Option.some.injEq, Prod.mk.injEq] at h
        obtain ⟨rfl, rfl⟩ := h
        obtain ⟨s1, s2, s3, s4, s5, s6, s7⟩ := Windows.step_inv op st bl₁ st₁ h1 h2 h3 heq
        obtain ⟨i1, i2, i3, i4, i5, i6, i7⟩ :=
          ih st₁ bl₂ st₂ (by rw [s1]; exact le_trans h1 s2) s3 s4 heq₂
        refine ⟨i1.trans s1, s2.trans i2, i3, i4, ?_, ?_, ?_⟩
        · exact Windows.dvd_sub_chain _ _ _ _ s2 i2 s5 i5
        · intro b hb
          rcases List.mem_append.mp hb with hb | hb
          · obtain ⟨t1, t2, t3⟩ := s6 b hb
            exact ⟨t1, le_trans t2 i2, t3⟩
          · obtain ⟨t1, t2, t3⟩ := i6 b hb
            exact ⟨le_trans s2 t1, t2, Windows.dvd_sub_chain _ _ _ _ s2 t1 s5 t3⟩
        · rw [List.pairwise_append]
          refine ⟨s7, i7, ?_⟩
          intro x hx y hy
          obtain ⟨t1, t2, t3⟩ := s6 x hx
          obtain ⟨u1, u2, u3⟩ := i6 y hy
          have hpos := Windows.commit_block_pos
          omega
      · exact absurd h (by simp)
    · exact absurd h (by simp)

/-- Witness for C5 at a concrete run: one (size 4, align 4) allocation on a
fresh arena with base 8 commits exactly the block at 8 and leaves the state
(start 8, alloc cursor 12, commit cursor 1032). -/
theorem commit_cursor_invariants_witness :
    Windows.run [Windows.Op.alloc 4 4] (Windows.init 8) =
      some ([8], ⟨8, 12, 1032⟩) ∧
    (⟨8, 12, 1032⟩ : Windows.VirtArena).alloc_cursor ≤
      (⟨8, 12, 1032⟩ : Windows.VirtArena).commit_cursor ∧
    Windows.COMMIT_BLOCK_SIZE ∣
      (⟨8, 12, 1032⟩ : Windows.VirtArena).commit_cursor -
        (⟨8, 12, 1032⟩ : Windows.VirtArena).start ∧
    ([8] : List Nat).Pairwise (· < ·) := by
  have h := commit_cursor_invariants [Windows.Op.alloc 4 4] (Windows.init 8)
    [8] ⟨8, 12, 1032⟩ (by decide) (by decide) (by decide) (by decide)
  exact ⟨by decide, h.2.2.1, h.2.2.2.1, h.2.2.2.2.2.2⟩

/-- C6: `reset` rewinds the allocation cursor to the base address and
changes nothing else — it writes no byte of arena memory (every previously
allocated byte keeps its value and stays observable until overwritten), and
on the explicit-commit platform it leaves the commit cursor in place; a
subsequent uninitialized allocation also writes no byte, so the old contents
remain observable through the new handles.  (The model contains no
destructors: the embedded `reset` consists of exactly the cursor write.) -/
theorem reset_rewinds_cursor_only :
    ∀ (st : ArenaMem) (wst : Windows.VirtArena) (size align addr : Nat),
      (reset_mem st).arena.cursor = st.arena.start ∧
      (reset_mem st).arena.start = st.arena.start ∧
      (reset_mem st).mem addr = st.mem addr ∧
      ((alloc_uninit_mem size align st).2).mem addr = st.mem addr ∧
      (Windows.reset wst).alloc_cursor = wst.start ∧
      (Windows.reset wst).start = wst.start ∧
      (Windows.reset wst).commit_cursor = wst.commit_cursor :=
  fun _ _ _ _ _ => ⟨rfl, rfl, rfl, rfl, rfl, rfl, rfl⟩

/-- C7: if a sequence of allocation requests performed on a freshly
constructed arena succeeds with a given list of (pointer, size) results,
then calling `reset` and replaying the same sequence reproduces exactly the
same results (and the same final state). -/
theorem reset_replay_same_addresses (reqs : List (Nat × Nat)) (base : Nat)
    (res : List (Nat × Nat)) (st1 : Unix.VirtArena)
    (h : Unix.run reqs (Unix.init base) = some (res, st1)) :
    Unix.run reqs (Unix.reset st1) = some (res, st1) := by
  have hs : st1.start = base := unix_run_start reqs (Unix.init base) res st1 h
  have he : Unix.reset st1 = Unix.init base := by
    simp [Unix.reset, Unix.init, hs]
  rw [he]
  exact h

/-- Witness for C7 at a concrete run: two (size 4, align 4) allocations on a
fresh arena with base 8 give addresses 8 and 12; after `reset`, replaying
the same two requests gives the same addresses and final state. -/
theorem reset_replay_same_addresses_witness :
    Unix.run [(4, 4), (4, 4)] (Unix.reset ⟨8, 16⟩) =
      some ([(8, 4), (12, 4)], ⟨8, 16⟩) :=
  reset_replay_same_addresses [(4, 4), (4, 4)] 8 [(8, 4), (12, 4)] ⟨8, 16⟩
    (by decide)

/-- C8: the slice allocation operations fail fast — aborting with the arena
untouched and no byte written — exactly when `Layout::array` reports that
the element-size times count computation overflows its `isize::MAX` bound;
otherwise they perform one bump allocation with the single combined layout
(size * n, align), one contiguous region in which the n element ranges
[p + i*size, p + i*size + size) all fit. -/
theorem slice_alloc_overflow_fail_fast (size align n : Nat)
    (st : Unix.VirtArena) (stm : ArenaMem) :
    ((size ≠ 0 ∧ Raw.max_size_for_align align / size < n) →
      Raw.alloc_slice_uninit size align n st = (none, st) ∧
      (Raw.alloc_slice_zeroed size align n stm).1 = none ∧
      (Raw.alloc_slice_zeroed size align n stm).2.arena = stm.arena ∧
      (∀ addr, ((Raw.alloc_slice_zeroed size align n stm).2).mem addr = stm.mem addr)) ∧
    (¬ (size ≠ 0 ∧ Raw.max_size_for_align align / size < n) →
      Raw.alloc_slice_uninit size align n st = Raw.alloc (size * n) align st ∧
      Raw.alloc_slice_zeroed size align n stm = Raw.alloc_zeroed (size * n) align stm ∧
      (∀ p, (Raw.alloc_slice_uninit size align n st).1 = some p →
        ∀ i, i < n → p + i * size + size ≤ p + size * n)) := by
  constructor
  · intro hover
    refine ⟨?_, ?_, ?_, ?_⟩
    · simp only [Raw.alloc_slice_uninit, Raw.layout_array, if_pos hover]
    · simp only [Raw.alloc_slice_zeroed, Raw.layout_array, if_pos hover]
    · simp only [Raw.alloc_slice_zeroed, Raw.layout_array, if_pos hover]
    · intro addr
      simp only [Raw.alloc_slice_zeroed, Raw.layout_array, if_pos hover]
  · intro hover
    refine ⟨?_, ?_, ?_⟩
    · simp only [Raw.alloc_slice_uninit, Raw.layout_array, if_neg hover]
    · simp only [Raw.alloc_slice_zeroed, Raw.layout_array, if_neg hover]
    intro p _ i hi
    have h2 : (i + 1) * size ≤ n * size := Nat.mul_le_mul_right size (by omega)
    calc p + i * size + size = p + (i + 1) * size := by ring
      _ ≤ p + n * size := Nat.add_le_add_left h2 p
      _ = p + size * n := by ring

/-- Witness for C8: with element size 1 and count 2^63 the layout
computation overflows and the slice allocation aborts leaving the arena
untouched; with element size 4, alignment 4 and count 3 it does not
overflow and performs one combined allocation of 12 bytes. -/
theorem slice_alloc_overflow_fail_fast_witness :
    Raw.alloc_slice_uninit 1 1 (2 ^ 63) (Unix.init 8) = (none, Unix.init 8) ∧
    Raw.alloc_slice_uninit 4 4 3 (Unix.init 8) = Raw.alloc (4 * 3) 4 (Unix.init 8) := by
  constructor
  · exact ((slice_alloc_overflow_fail_fast 1 1 (2 ^ 63) (Unix.init 8)
      ⟨Unix.init 8, fun _ => 0⟩).1 (by decide)).1
  · exact ((slice_alloc_overflow_fail_fast 4 4 3 (Unix.init 8)
      ⟨Unix.init 8, fun _ => 0⟩).2 (by decide)).1

/-- C9: immediately after a zero-initializing allocation succeeds with
pointer p, every one of the size bytes reachable through the returned
handle — the bytes at p, p+1, …, p+size‑1 — equals 0. -/
theorem alloc_zeroed_bytes_zero (size align : Nat) (st : ArenaMem) (p : Nat)
    (h : (Raw.alloc_zeroed size align st).1 = some p) :
    ∀ i, i < size → ((Raw.alloc_zeroed size align st).2).mem (p + i) = 0 := by
  intro i hi
  unfold Raw.alloc_zeroed at h ⊢
  split at h
  · simp at h
  · rename_i q ar heq
    simp only [Option.some.injEq] at h
    subst h
    dsimp only
    rw [if_pos ⟨Nat.le_add_right _ _, by omega⟩]

/-- Witness for C9: a zero-initializing allocation of 4 bytes aligned to 4
on a fresh arena with base 8, whose memory previously held 7 everywhere,
returns pointer 8 and the byte at address 9 afterwards reads 0. -/
theorem alloc_zeroed_bytes_zero_witness :
    (Raw.alloc_zeroed 4 4 ⟨Unix.init 8, fun _ => 7⟩).1 = some 8 ∧
    ((Raw.alloc_zeroed 4 4 ⟨Unix.init 8, fun _ => 7⟩).2).mem (8 + 1) = 0 :=
  ⟨by decide,
    alloc_zeroed_bytes_zero 4 4 ⟨Unix.init 8, fun _ => 7⟩ 8 (by decide) 1 (by decide)⟩

/-- C10: when an allocation aborts (in particular on the capacity-check OOM
path, which runs before any cursor update), the arena state is unchanged:
the unix arena is returned as it was, and on the explicit-commit platform
both cursors keep their values and no block is committed. -/
theorem failed_alloc_state_unchanged (size align : Nat) (st : Unix.VirtArena)
    (wst : Windows.VirtArena) :
    ((Unix.alloc_uninit size align st).1 = none →
      (Unix.alloc_uninit size align st).2 = st) ∧
    ((Windows.alloc_uninit size align wst).1 = none →
      (Windows.alloc_uninit size align wst).2.2 = wst ∧
      (Windows.alloc_uninit size align wst).2.1 = []) := by
  constructor
  · unfold Unix.alloc_uninit
    split
    · intro _
      rfl
    · dsimp only
      split
      · intro _
        rfl
      · intro h
        exact absurd h (by simp)
  · unfold Windows.alloc_uninit
    split
    · intro _
      exact ⟨rfl, rfl⟩
    · dsimp only
      split
      · intro _
        exact ⟨rfl, rfl⟩
      · intro h
        exact absurd h (by simp)

/-- Witness for C10: an allocation of 2^40 bytes exceeds the 2^37-byte
capacity on a fresh arena with base 8, aborts, and leaves both platform
states exactly as they were, committing nothing. -/
theorem failed_alloc_state_unchanged_witness :
    (Unix.alloc_uninit (2 ^ 40) 1 (Unix.init 8)).2 = Unix.init 8 ∧
    ((Windows.alloc_uninit (2 ^ 40) 1 (Windows.init 8)).2.2 = Windows.init 8 ∧
      (Windows.alloc_uninit (2 ^ 40) 1 (Windows.init 8)).2.1 = []) :=
  ⟨(failed_alloc_state_unchanged (2 ^ 40) 1 (Unix.init 8) (Windows.init 8)).1
      (by decide),
    (failed_alloc_state_unchanged (2 ^ 40) 1 (Unix.init 8) (Windows.init 8)).2
      (by decide)⟩
